import Mathlib

/-!
# Verification of the quantum_crypto FFI facade

Shallow embedding of `programs/simd_crypto_ffi/examples/quantum_crypto.rs`:
safe Rust wrappers around an external cryptographic engine, plus the
`SecureBytes` RAII guard that wipes its buffer on drop.

Bytes are modelled as `List Nat` (each entry intended < 256).  An FFI
out-parameter buffer is modelled by `writeInto`: the engine writes its bytes
from offset 0 into a caller-allocated buffer, which keeps its length.  The
engine functions (`quantum_*`) are not part of the repository sources given;
where a claim depends on them they are modelled from the spec, and each such
definition says so in its doc comment.
-/

/-- The semantics of an FFI call writing `w` into a caller buffer `buf` from
offset 0: the buffer keeps its length, bytes beyond `w` are unchanged. -/
def writeInto (buf w : List Nat) : List Nat :=
  w.take buf.length ++ buf.drop w.length

theorem writeInto_length (buf w : List Nat) : (writeInto buf w).length = buf.length := by
  simp [writeInto]
  omega

theorem writeInto_of_length_eq (buf w : List Nat) (h : w.length = buf.length) :
    writeInto buf w = w := by
  simp [writeInto, h]

/-- Big-endian 4-byte encoding of a 32-bit word. -/
def be32 (n : Nat) : List Nat :=
  [(n >>> 24) % 256, (n >>> 16) % 256, (n >>> 8) % 256, n % 256]

theorem be32_length (n : Nat) : (be32 n).length = 4 := rfl

/-- Big-endian 8-byte encoding of a 64-bit length field. -/
def be64 (n : Nat) : List Nat :=
  [(n >>> 56) % 256, (n >>> 48) % 256, (n >>> 40) % 256, (n >>> 32) % 256,
   (n >>> 24) % 256, (n >>> 16) % 256, (n >>> 8) % 256, n % 256]

namespace SHA256

/-- 2^32, the word modulus. -/
def M32 : Nat := 4294967296

def add32 (a b : Nat) : Nat := (a + b) % M32

def rotr (n x : Nat) : Nat := ((x >>> n) ||| (x <<< (32 - n))) % M32

def bnot32 (x : Nat) : Nat := 4294967295 ^^^ x

def ch (x y z : Nat) : Nat := (x &&& y) ^^^ (bnot32 x &&& z)

def maj (x y z : Nat) : Nat := (x &&& y) ^^^ (x &&& z) ^^^ (y &&& z)

def bigSigma0 (x : Nat) : Nat := rotr 2 x ^^^ rotr 13 x ^^^ rotr 22 x

def bigSigma1 (x : Nat) : Nat := rotr 6 x ^^^ rotr 11 x ^^^ rotr 25 x

def smallSigma0 (x : Nat) : Nat := rotr 7 x ^^^ rotr 18 x ^^^ (x >>> 3)

def smallSigma1 (x : Nat) : Nat := rotr 17 x ^^^ rotr 19 x ^^^ (x >>> 10)

/-- The 64 SHA-256 round constants (FIPS 180-4), in decimal. -/
def K : List Nat :=
  [1116352408, 1899447441, 3049323471, 3921009573, 961987163,
   1508970993, 2453635748, 2870763221, 3624381080, 310598401,
   607225278, 1426881987, 1925078388, 2162078206, 2614888103,
   3248222580, 3835390401, 4022224774, 264347078, 604807628,
   770255983, 1249150122, 1555081692, 1996064986, 2554220882,
   2821834349, 2952996808, 3210313671, 3336571891, 3584528711,
   113926993, 338241895, 666307205, 773529912, 1294757372,
   1396182291, 1695183700, 1986661051, 2177026350, 2456956037,
   2730485921, 2820302411, 3259730800, 3345764771, 3516065817,
   3600352804, 4094571909, 275423344, 430227734, 506948616,
   659060556, 883997877, 958139571, 1322822218, 1537002063,
   1747873779, 1955562222, 2024104815, 2227730452, 2361852424,
   2428436474, 2756734187, 3204031479, 3329325298]

/-- The eight working variables of the compression function. -/
structure Hash8 where
  a : Nat
  b : Nat
  c : Nat
  d : Nat
  e : Nat
  f : Nat
  g : Nat
  h : Nat

/-- Initial hash value (FIPS 180-4), in decimal. -/
def H0 : Hash8 :=
  ⟨1779033703, 3144134277, 1013904242, 2773480762,
   1359893119, 2600822924, 528734635, 1541459225⟩

/-- SHA-256 padding: append 0x80, zeros, and the 64-bit big-endian bit length,
to a multiple of 64 bytes. -/
def pad (msg : List Nat) : List Nat :=
  let L := msg.length
  msg ++ [0x80] ++ List.replicate ((64 - ((L + 9) % 64)) % 64) 0 ++ be64 (8 * L)

/-- Group bytes into big-endian 32-bit words. -/
def toWords : List Nat → List Nat
  | b0 :: b1 :: b2 :: b3 :: rest =>
      ((((b0 <<< 8) ||| b1) <<< 8 ||| b2) <<< 8 ||| b3) :: toWords rest
  | _ => []

/-- Extend 16 message words to the 64-entry message schedule. -/
def schedule (ws : List Nat) : List Nat :=
  (List.range 48).foldl
    (fun acc _ =>
      let n := acc.length
      acc ++ [add32 (add32 (smallSigma1 (acc.getD (n - 2) 0)) (acc.getD (n - 7) 0))
                    (add32 (smallSigma0 (acc.getD (n - 15) 0)) (acc.getD (n - 16) 0))])
    ws

/-- One round of the compression function with schedule word `w` and constant `k`. -/
def step (wk : Nat × Nat) (s : Hash8) : Hash8 :=
  let t1 := add32 s.h (add32 (bigSigma1 s.e) (add32 (ch s.e s.f s.g) (add32 wk.2 wk.1)))
  let t2 := add32 (bigSigma0 s.a) (maj s.a s.b s.c)
  ⟨add32 t1 t2, s.a, s.b, s.c, add32 s.d t1, s.e, s.f, s.g⟩

/-- Process one 64-byte block. -/
def compress (h0 : Hash8) (block : List Nat) : Hash8 :=
  let f := ((schedule (toWords block)).zip K).foldl (fun s wk => step wk s) h0
  ⟨add32 h0.a f.a, add32 h0.b f.b, add32 h0.c f.c, add32 h0.d f.d,
   add32 h0.e f.e, add32 h0.f f.f, add32 h0.g f.g, add32 h0.h f.h⟩

/-- SHA-256 of a byte sequence, as its 32 digest bytes. -/
def hashBytes (msg : List Nat) : List Nat :=
  let p := pad msg
  let hh := (List.range (p.length / 64)).foldl
    (fun h i => compress h ((p.drop (64 * i)).take 64)) H0
  be32 hh.a ++ be32 hh.b ++ be32 hh.c ++ be32 hh.d ++
  be32 hh.e ++ be32 hh.f ++ be32 hh.g ++ be32 hh.h

theorem hashBytes_length (msg : List Nat) : (hashBytes msg).length = 32 := by
  simp [hashBytes, be32]

end SHA256

/-- The bytes of the ASCII string `hello world`. -/
def helloWorldBytes : List Nat :=
  [104, 101, 108, 108, 111, 32, 119, 111, 114, 108, 100]

/-- HMAC-SHA256 (RFC 2104 with SHA-256, 64-byte block). -/
def hmacSha256Bytes (key msg : List Nat) : List Nat :=
  let k0 := if 64 < key.length then SHA256.hashBytes key else key
  let k := k0 ++ List.replicate (64 - k0.length) 0
  SHA256.hashBytes ((k.map (fun b => b ^^^ 0x5c)) ++
    SHA256.hashBytes ((k.map (fun b => b ^^^ 0x36)) ++ msg))

theorem hmacSha256Bytes_length (key msg : List Nat) :
    (hmacSha256Bytes key msg).length = 32 := by
  simp [hmacSha256Bytes, SHA256.hashBytes_length]

/-- One PBKDF2-HMAC-SHA256 block `T_i`: the xor of the `c` iterates of HMAC
starting from `HMAC(password, salt || be32 i)`. -/
def pbkdf2Block (password salt : List Nat) (c i : Nat) : List Nat :=
  if c = 0 then List.replicate 32 0
  else
    let u1 := hmacSha256Bytes password (salt ++ be32 i)
    ((List.range (c - 1)).foldl
      (fun acc _ =>
        let u := hmacSha256Bytes password acc.2
        (List.zipWith (fun x y => x ^^^ y) acc.1 u, u))
      (u1, u1)).1

/-- PBKDF2-HMAC-SHA256 (RFC 8018): concatenate blocks `T_1 .. T_l` and keep
the first `dkLen` bytes. -/
def pbkdf2Bytes (password salt : List Nat) (c dkLen : Nat) : List Nat :=
  (((List.range ((dkLen + 31) / 32)).map
      (fun i => pbkdf2Block password salt c (i + 1))).flatten).take dkLen

/-- Checks a byte sequence for well-formed UTF-8 (RFC 3629), the validity
test behind Rust's `CStr::to_str` and `String::from_utf8`. -/
def utf8ValidB : List Nat → Bool
  | [] => true
  | b :: rest =>
    if b ≤ 127 then utf8ValidB rest
    else if 194 ≤ b ∧ b ≤ 223 then
      match rest with
      | c1 :: r => (128 ≤ c1 && c1 ≤ 191) && utf8ValidB r
      | [] => false
    else if b = 224 then
      match rest with
      | c1 :: c2 :: r => (160 ≤ c1 && c1 ≤ 191) && (128 ≤ c2 && c2 ≤ 191) && utf8ValidB r
      | _ => false
    else if 225 ≤ b ∧ b ≤ 236 then
      match rest with
      | c1 :: c2 :: r => (128 ≤ c1 && c1 ≤ 191) && (128 ≤ c2 && c2 ≤ 191) && utf8ValidB r
      | _ => false
    else if b = 237 then
      match rest with
      | c1 :: c2 :: r => (128 ≤ c1 && c1 ≤ 159) && (128 ≤ c2 && c2 ≤ 191) && utf8ValidB r
      | _ => false
    else if 238 ≤ b ∧ b ≤ 239 then
      match rest with
      | c1 :: c2 :: r => (128 ≤ c1 && c1 ≤ 191) && (128 ≤ c2 && c2 ≤ 191) && utf8ValidB r
      | _ => false
    else if b = 240 then
      match rest with
      | c1 :: c2 :: c3 :: r =>
          (144 ≤ c1 && c1 ≤ 191) && (128 ≤ c2 && c2 ≤ 191) && (128 ≤ c3 && c3 ≤ 191) &&
          utf8ValidB r
      | _ => false
    else if 241 ≤ b ∧ b ≤ 243 then
      match rest with
      | c1 :: c2 :: c3 :: r =>
          (128 ≤ c1 && c1 ≤ 191) && (128 ≤ c2 && c2 ≤ 191) && (128 ≤ c3 && c3 ≤ 191) &&
          utf8ValidB r
      | _ => false
    else if b = 244 then
      match rest with
      | c1 :: c2 :: c3 :: r =>
          (128 ≤ c1 && c1 ≤ 143) && (128 ≤ c2 && c2 ≤ 191) && (128 ≤ c3 && c3 ≤ 191) &&
          utf8ValidB r
      | _ => false
    else false

namespace Engine

/-- Modelled from the spec: the external engine's `quantum_sha256` computes
standard SHA-256 of the input and reports status 0 on success.  The engine's
implementation is not among the given sources; the spec (§1) fixes its
algorithm as SHA-256 and its interface (§6) as pointer+length in, fixed-size
out-buffer, integer status back. -/
def quantum_sha256 (input : List Nat) : Int × List Nat :=
  (0, SHA256.hashBytes input)

/-- Modelled from the spec: `quantum_sha256d` is hash applied twice in
sequence, `hash(hash_as_bytes(data))` (§4.1), with status 0 on success. -/
def quantum_sha256d (input : List Nat) : Int × List Nat :=
  (0, SHA256.hashBytes (SHA256.hashBytes input))

/-- Modelled from the spec: `quantum_pbkdf2_sha256` performs PBKDF2-HMAC-SHA256
key stretching, writing exactly `output_len` bytes (§4.1, §6); a requested
output length of zero is engine-defined invalid (§7, MisuseFailure) and is
reported through a non-zero status with nothing written. -/
def quantum_pbkdf2_sha256 (password salt : List Nat) (iterations output_len : Nat) :
    Int × List Nat :=
  if output_len = 0 then (1, [])
  else (0, pbkdf2Bytes password salt iterations output_len)

/-- Modelled from the spec: `quantum_secure_zero` overwrites every byte of the
given buffer with zero, in place (§4.1 `wipe`, §6 secure-wipe call). -/
def quantum_secure_zero (ptr : List Nat) : List Nat :=
  ptr.map (fun _ => 0)

end Engine

/-!
## The safe Rust wrappers

Each `pub fn` of the source becomes a Lean function.  The `_with` form of a
wrapper takes the engine call as a parameter with the FFI shape
(inputs ↦ status × bytes written); it is the exact body of the Rust function,
which allocates a zeroed output buffer, makes the one engine call, discards
the status, and returns the buffer.  The plain form links in the modelled
engine, as `#[link] extern` does in the source.
-/

/-- Body of `pub fn sha256`: 32-byte zeroed buffer, one engine call whose
`i32` status is discarded, buffer returned. -/
def sha256_with (eng : List Nat → Int × List Nat) (data : List Nat) : List Nat :=
  let output := List.replicate 32 0
  writeInto output (eng data).2

/-- `pub fn sha256` with the engine linked in. -/
def sha256 (data : List Nat) : List Nat :=
  sha256_with Engine.quantum_sha256 data

/-- Body of `pub fn sha256d`: same shape as `sha256`, calling the engine's
double-hash entry point; the status is discarded. -/
def sha256d_with (eng : List Nat → Int × List Nat) (data : List Nat) : List Nat :=
  let output := List.replicate 32 0
  writeInto output (eng data).2

/-- `pub fn sha256d` with the engine linked in. -/
def sha256d (data : List Nat) : List Nat :=
  sha256d_with Engine.quantum_sha256d data

/-- Body of `pub fn blake3`: 32-byte zeroed buffer, one engine call, status
discarded.  The engine's BLAKE3 itself is not among the given sources and no
claim depends on its digest values, so the wrapper stays parametric in it. -/
def blake3_with (eng : List Nat → Int × List Nat) (data : List Nat) : List Nat :=
  let output := List.replicate 32 0
  writeInto output (eng data).2

/-- Body of `pub fn hmac_sha256`: 32-byte zeroed buffer, one engine call with
key and message, status discarded. -/
def hmac_sha256_with (eng : List Nat → List Nat → Int × List Nat)
    (key message : List Nat) : List Nat :=
  let output := List.replicate 32 0
  writeInto output (eng key message).2

/-- Body of `pub fn pbkdf2_sha256`: `vec![0u8; output_len]`, one engine call
writing in place, status discarded, buffer returned. -/
def pbkdf2_sha256_with (eng : List Nat → List Nat → Nat → Nat → Int × List Nat)
    (password salt : List Nat) (iterations output_len : Nat) : List Nat :=
  let output := List.replicate output_len 0
  writeInto output (eng password salt iterations output_len).2

/-- `pub fn pbkdf2_sha256` with the engine linked in. -/
def pbkdf2_sha256 (password salt : List Nat) (iterations output_len : Nat) : List Nat :=
  pbkdf2_sha256_with Engine.quantum_pbkdf2_sha256 password salt iterations output_len

/-- `pub fn secure_zero`: forwards the whole slice (pointer and length) to the
engine's wipe. -/
def secure_zero (data : List Nat) : List Nat :=
  Engine.quantum_secure_zero data

/-- The bytes of the fallback literal `unknown`. -/
def unknownBytes : List Nat := [117, 110, 107, 110, 111, 119, 110]

/-- `pub fn version`: the engine's C string, decoded by `CStr::to_str`
(UTF-8 validation of the bytes); `unwrap_or` substitutes the literal
`unknown` when validation fails.  A Rust `&str` is its UTF-8 bytes, so the
result is modelled as bytes. -/
def version_with (cbytes : List Nat) : List Nat :=
  if utf8ValidB cbytes then cbytes else unknownBytes

/-- `pub fn get_error`: a 256-byte zeroed buffer is passed to the engine with
its capacity; the engine writes bytes and reports a count.  `none` models a
panic (the slice `buf[..len]` with `len` out of bounds); `some none` models
`Option::None` (no error recorded, or text not valid UTF-8); `some (some s)`
models `Some(s)`.  The engine parameter maps the capacity to the reported
count and the bytes written. -/
def get_error_with (eng : Nat → Nat × List Nat) : Option (Option (List Nat)) :=
  let buf0 := List.replicate 256 0
  let r := eng buf0.length
  let buf := writeInto buf0 r.2
  let len := r.1
  if 0 < len then
    if len ≤ buf.length then
      some (if utf8ValidB (buf.take len) then some (buf.take len) else none)
    else none
  else some none

/-!
## SecureBytes

`SecureBytes` owns a `Vec<u8>`.  Its public interface while alive is
`as_slice` (read) and, through `as_mut_slice` / `DerefMut`, writes into a
`&mut [u8]` — which can change bytes but never the length.  `Drop::drop`
calls `secure_zero` on the full buffer; Rust runs it exactly once when the
guard leaves scope, on every exit path.
-/

structure SecureBytes where
  bytes : List Nat

/-- `SecureBytes::new`. -/
def SecureBytes.new (data : List Nat) : SecureBytes := ⟨data⟩

/-- `SecureBytes::as_slice` (also `Deref`): read access, no copy and no
mutation. -/
def SecureBytes.as_slice (s : SecureBytes) : List Nat := s.bytes

/-- A single byte store through the `&mut [u8]` from `as_mut_slice` or
`DerefMut`: `slice[i] = v`.  A mutable slice cannot change the length. -/
def SecureBytes.writeByte (s : SecureBytes) (i v : Nat) : SecureBytes :=
  ⟨s.bytes.set i v⟩

/-- `Drop::drop for SecureBytes`: wipe the full owned buffer. -/
def SecureBytes.drop (s : SecureBytes) : SecureBytes :=
  ⟨secure_zero s.bytes⟩

/-- One interaction with a live guard through its public mutating interface. -/
inductive SBOp where
  | write (i v : Nat)

def applyOp (s : SecureBytes) (op : SBOp) : SecureBytes :=
  match op with
  | .write i v => s.writeByte i v

def applyOps (s : SecureBytes) (ops : List SBOp) : SecureBytes :=
  ops.foldl applyOp s

/-- The three ways control can leave the scope owning a guard. -/
inductive ExitKind where
  | normal
  | earlyReturn
  | failure

structure ScopeResult where
  exit : ExitKind
  guard : SecureBytes

/-- A scope that owns a `SecureBytes` built from `data`, interacts with it
through `ops`, and then leaves by `exit`.  Rust's drop semantics run
`Drop::drop` exactly once when the guard goes out of scope, whichever path
is taken; each arm below performs that one drop. -/
def runScope (ops : List SBOp) (exit : ExitKind) (data : List Nat) : ScopeResult :=
  let g := applyOps (SecureBytes.new data) ops
  match exit with
  | .normal => ⟨.normal, g.drop⟩
  | .earlyReturn => ⟨.earlyReturn, g.drop⟩
  | .failure => ⟨.failure, g.drop⟩

/-!
## Hex display, for the test-vector claim
-/

def hexChar (n : Nat) : Char :=
  if n < 10 then Char.ofNat (48 + n) else Char.ofNat (87 + n)

/-- Lowercase hex rendering of a byte sequence, two digits per byte. -/
def hexOfBytes (bs : List Nat) : List Char :=
  (bs.map (fun b => [hexChar (b / 16), hexChar (b % 16)])).flatten

/-- The literal the spec gives (§8) for `hash(b"hello world")`, verbatim. -/
def specHexLiteral : List Char :=
  "b94d27b9934d3e08a52e52d7da7dabfac484efe37a5380ee9088f7ace2efcde".toList

/-- The vector asserted by the source's own `test_sha256`, verbatim. -/
def sourceHexVector : List Char :=
  "b94d27b9934d3e08a52e52d7da7dabfac484efe37a5380ee9088f7ace2efcde9".toList

/-!
## Basic lemmas
-/

theorem secure_zero_eq_replicate (data : List Nat) :
    secure_zero data = List.replicate data.length 0 := by
  induction data with
  | nil => rfl
  | cons b t ih =>
      simp [secure_zero, Engine.quantum_secure_zero, List.replicate_succ]

theorem sha256_eq_hashBytes (data : List Nat) : sha256 data = SHA256.hashBytes data := by
  unfold sha256 sha256_with Engine.quantum_sha256
  exact writeInto_of_length_eq _ _ (by simp [SHA256.hashBytes_length])

theorem sha256d_eq_hashBytes_twice (data : List Nat) :
    sha256d data = SHA256.hashBytes (SHA256.hashBytes data) := by
  unfold sha256d sha256d_with Engine.quantum_sha256d
  exact writeInto_of_length_eq _ _ (by simp [SHA256.hashBytes_length])

theorem applyOp_length (s : SecureBytes) (op : SBOp) :
    (applyOp s op).bytes.length = s.bytes.length := by
  cases op with
  | write i v => simp [applyOp, SecureBytes.writeByte]

theorem applyOps_length (ops : List SBOp) (s : SecureBytes) :
    (applyOps s ops).bytes.length = s.bytes.length := by
  induction ops generalizing s with
  | nil => rfl
  | cons op t ih =>
      simp only [applyOps, List.foldl_cons] at ih ⊢
      rw [ih (applyOp s op), applyOp_length]

/-!
## Claims
-/

/-- An engine call that reports failure (status 1) and writes nothing, the
case the spec's EngineFailure taxonomy describes. -/
def failHashEngine : List Nat → Int × List Nat := fun _ => (1, [])

def failMacEngine : List Nat → List Nat → Int × List Nat := fun _ _ => (1, [])

def failKdfEngine : List Nat → List Nat → Nat → Nat → Int × List Nat :=
  fun _ _ _ _ => (1, [])

/-- C1: the claim requires that a non-zero engine status surface as an
explicit failure result, never a default/zeroed output passed off as a
digest.  Every wrapper discards the engine's `i32` status: when the engine
reports status 1 and writes nothing, each of `sha256`, `sha256d`, `blake3`,
`hmac_sha256` returns the zeroed 32-byte buffer, and `pbkdf2_sha256` the
zeroed `output_len`-byte buffer, indistinguishable from a computed digest
and with no failure indication in the return type. -/
theorem c1_nonzero_status_yields_zeroed_digest :
    (failHashEngine helloWorldBytes).1 ≠ 0 ∧
    sha256_with failHashEngine helloWorldBytes = List.replicate 32 0 ∧
    sha256d_with failHashEngine helloWorldBytes = List.replicate 32 0 ∧
    blake3_with failHashEngine helloWorldBytes = List.replicate 32 0 ∧
    hmac_sha256_with failMacEngine [107] helloWorldBytes = List.replicate 32 0 ∧
    pbkdf2_sha256_with failKdfEngine [112] [115] 1000 32 = List.replicate 32 0 := by
  refine ⟨by decide, rfl, rfl, rfl, rfl, rfl⟩

/-- C2: whichever exit path ends the scope — normal completion, early
return, or failure propagation — the guard's drop has run on the full owned
buffer, leaving it all zeros of the construction length; and the transition
is one-way, since wiping a wiped guard changes nothing.  `runScope` performs
the drop exactly once per path, which is Rust's drop guarantee. -/
theorem c2_guard_wiped_on_every_exit_path :
    ∀ (ops : List SBOp) (exit : ExitKind) (data : List Nat),
      (runScope ops exit data).guard.bytes = List.replicate data.length 0 ∧
      ((runScope ops exit data).guard).drop = (runScope ops exit data).guard := by
  intro ops exit data
  have hlen : (applyOps (SecureBytes.new data) ops).bytes.length = data.length := by
    simpa [SecureBytes.new] using applyOps_length ops (SecureBytes.new data)
  cases exit <;>
    simp [runScope, SecureBytes.drop, secure_zero_eq_replicate, hlen]

/-- C3: `secure_zero` zeroes every byte of the buffer in place (the result is
all zeros of the same length), and on the empty buffer it is a no-op. -/
theorem c3_secure_zero_zeroes_every_byte :
    (∀ data : List Nat, secure_zero data = List.replicate data.length 0) ∧
    secure_zero [] = [] :=
  ⟨secure_zero_eq_replicate, rfl⟩

/-- C4: `pbkdf2_sha256` returns exactly `output_len` bytes for every
password, salt, iteration count and requested length — the wrapper allocates
`vec![0u8; output_len]` and the engine writes in place, so the returned
buffer's length is structurally `output_len`, covering lengths below and
above the 32-byte native digest size. -/
theorem c4_derive_key_exact_length :
    ∀ (password salt : List Nat) (iterations output_len : Nat),
      (pbkdf2_sha256 password salt iterations output_len).length = output_len := by
  intro password salt iterations output_len
  simp [pbkdf2_sha256, pbkdf2_sha256_with, writeInto_length]

/-- C5: the dedicated double-hash entry point agrees with composing the
single hash twice: `sha256d x = sha256 (sha256 x)` for every input. -/
theorem c5_double_hash_is_hash_of_hash :
    ∀ data : List Nat, sha256d data = sha256 (sha256 data) := by
  intro data
  rw [sha256d_eq_hashBytes_twice, sha256_eq_hashBytes, sha256_eq_hashBytes]

/-- C6: no public operation terminates abnormally for valid in-memory
buffers and in-range parameters: `get_error` returns a value (never the
panic case) whenever the engine's reported byte count respects its
interface bound of the 256-byte capacity; `version` always returns either
the engine's text or the fallback; and every computational wrapper and the
wipe are total, returning a buffer of the documented size for any engine
behavior and any inputs. -/
theorem c6_no_abnormal_termination :
    (∀ eng : Nat → Nat × List Nat, (eng 256).1 ≤ 256 → (get_error_with eng).isSome = true) ∧
    (∀ v : List Nat, version_with v = v ∨ version_with v = unknownBytes) ∧
    (∀ (eng : List Nat → Int × List Nat) (data : List Nat),
      (sha256_with eng data).length = 32 ∧ (sha256d_with eng data).length = 32 ∧
      (blake3_with eng data).length = 32) ∧
    (∀ (eng : List Nat → List Nat → Int × List Nat) (k m : List Nat),
      (hmac_sha256_with eng k m).length = 32) ∧
    (∀ (eng : List Nat → List Nat → Nat → Nat → Int × List Nat)
       (p s : List Nat) (c L : Nat),
      (pbkdf2_sha256_with eng p s c L).length = L) ∧
    (∀ d : List Nat, (secure_zero d).length = d.length) := by
  refine ⟨?_, ?_, ?_, ?_, ?_, ?_⟩
  · intro eng h
    by_cases h1 : 0 < (eng 256).1
    · simp only [get_error_with, List.length_replicate, writeInto_length, if_pos h1,
        if_pos h, Option.isSome_some]
    · simp only [get_error_with, List.length_replicate, if_neg h1, Option.isSome_some]
  · intro v
    unfold version_with
    split
    · exact Or.inl rfl
    · exact Or.inr rfl
  · intro eng data
    refine ⟨?_, ?_, ?_⟩ <;>
      simp [sha256_with, sha256d_with, blake3_with, writeInto_length]
  · intro eng k m
    simp [hmac_sha256_with, writeInto_length]
  · intro eng p s c L
    simp [pbkdf2_sha256_with, writeInto_length]
  · intro d
    simp [secure_zero_eq_replicate]

/-- Witness for C6 at a concrete engine: one that reports 5 bytes of error
text within the 256-byte capacity. -/
theorem c6_no_abnormal_termination_witness :
    (get_error_with (fun _ => (5, [101, 114, 114, 111, 114]))).isSome = true :=
  c6_no_abnormal_termination.1 (fun _ => (5, [101, 114, 114, 111, 114])) (by decide)

/-- C7: the engine defines a requested key-derivation output length of zero
as invalid and reports status 1; `pbkdf2_sha256` discards that status and
silently returns the empty byte vector with no failure indication — the
explicit failure the claim requires never reaches the caller. -/
theorem c7_zero_output_len_silently_returns_empty :
    (Engine.quantum_pbkdf2_sha256 [112, 119] [115] 1000 0).1 = 1 ∧
    pbkdf2_sha256 [112, 119] [115] 1000 0 = [] := by
  exact ⟨rfl, rfl⟩

/-- C8: `version` never fails: for every engine-returned byte sequence it
returns a (valid UTF-8) string, and when the bytes are not decodable as text
it returns the documented fallback literal `unknown`. -/
theorem c8_version_total_with_fallback :
    ∀ v : List Nat,
      (utf8ValidB v = false → version_with v = unknownBytes) ∧
      utf8ValidB (version_with v) = true := by
  intro v
  constructor
  · intro h
    simp [version_with, h]
  · unfold version_with
    split
    · assumption
    · decide

/-- Witness for C8 at the concrete undecodable byte 0xFF. -/
theorem c8_version_total_with_fallback_witness :
    utf8ValidB [255] = false ∧ version_with [255] = unknownBytes :=
  ⟨by decide, (c8_version_total_with_fallback [255]).1 (by decide)⟩

/-- C9, counterexample: the hex rendering of `sha256(b"hello world")` is not
the literal the spec gives — the spec's literal has 63 hex digits (it drops
the final `9`) and so is not a 32-byte value at all. -/
theorem c9_spec_literal_counterexample :
    hexOfBytes (sha256 helloWorldBytes) ≠ specHexLiteral ∧
    specHexLiteral.length = 63 := by
  constructor
  · decide
  · decide

/-- C9, amended: `sha256(b"hello world")` equals the canonical 32-byte
SHA-256 vector ending in `...cde9`, the one the source's own test asserts. -/
theorem c9_hash_hello_world_vector :
    sha256 helloWorldBytes =
      [0xb9, 0x4d, 0x27, 0xb9, 0x93, 0x4d, 0x3e, 0x08, 0xa5, 0x2e, 0x52, 0xd7,
       0xda, 0x7d, 0xab, 0xfa, 0xc4, 0x84, 0xef, 0xe3, 0x7a, 0x53, 0x80, 0xee,
       0x90, 0x88, 0xf7, 0xac, 0xe2, 0xef, 0xcd, 0xe9] ∧
    hexOfBytes (sha256 helloWorldBytes) = sourceHexVector := by
  constructor
  · decide
  · decide

/-- C10: the guard's buffer length is invariant from construction to drop:
reads do not change the buffer, writes through the mutable slice preserve
the length, any sequence of public operations preserves it, and the wipe at
end of scope therefore covers exactly the bytes stored at construction. -/
theorem c10_buffer_length_invariant :
    ∀ (data : List Nat) (ops : List SBOp),
      (applyOps (SecureBytes.new data) ops).bytes.length = data.length ∧
      ((applyOps (SecureBytes.new data) ops).as_slice).length = data.length ∧
      (∀ i v : Nat,
        ((applyOps (SecureBytes.new data) ops).writeByte i v).bytes.length = data.length) ∧
      ((applyOps (SecureBytes.new data) ops).drop).bytes.length = data.length := by
  intro data ops
  have h : (applyOps (SecureBytes.new data) ops).bytes.length = data.length := by
    simpa [SecureBytes.new] using applyOps_length ops (SecureBytes.new data)
  refine ⟨h, h, ?_, ?_⟩
  · intro i v
    simp [SecureBytes.writeByte, h]
  · simp [SecureBytes.drop, secure_zero_eq_replicate, h]

